import Mathlib

/-!
Shallow embedding of the trade-tracker server (`src/server.js`) for
verification of its specification.

Modelling conventions:
* JavaScript field values that matter to the program (numbers, strings,
  `undefined`) are modelled by `JsVal`; an absent object key reads as
  `JsVal.undef`, exactly as property access on a JS object.
* JS numbers are idealised as rationals (`Rat`); no claim below depends on
  binary floating-point rounding.
* Timestamps (`Date.now()`, `new Date().toISOString()`) are modelled by a
  `Nat` parameter `now` threaded into each operation; ISO-8601 strings of
  equal length compare chronologically, so ordering facts about the stored
  timestamps are faithfully represented by ordering on `Nat`.
* The durable file and the in-memory array form a `ServerState`; a durable
  write (`saveTrades`) either succeeds (file := memory) or fails, which in
  the code raises and is caught by the handler's `catch`, producing a 500
  response.  The boolean `saveFails` selects the outcome.
-/

namespace TradeTracker

/-- A JavaScript value as it occurs in a trade-record field: `undefined`,
a number (idealised as a rational), or a string. -/
inductive JsVal where
  | undef : JsVal
  | num : Rat → JsVal
  | str : String → JsVal
deriving DecidableEq, Repr

/-- JavaScript truthiness restricted to `JsVal`: `undefined`, `0` and the
empty string are falsy, everything else is truthy. -/
def JsVal.truthy : JsVal → Bool
  | .undef => false
  | .num q => q != 0
  | .str s => s != ""

/-- The JS expression `a || b`: `a` if truthy, otherwise `b`. -/
def jsOr (a b : JsVal) : JsVal :=
  if a.truthy then a else b

/-- The JS expression `v || ''` followed by use as a string, as in
`notes: value.notes || ''`; also extracts a validated string field. -/
def strOf : JsVal → String
  | .str s => s
  | _ => ""

/-- Split a character list at the first dot, if any (used to decide the
decimal regex and to parse decimals). -/
def breakDot : List Char → List Char × Option (List Char)
  | [] => ([], none)
  | c :: cs =>
      if c == '.' then ([], some cs)
      else
        let r := breakDot cs
        (c :: r.1, r.2)

/-- Strip one leading sign character, as the regex `[+-]?` does. -/
def stripSign (s : String) : List Char :=
  match s.data with
  | [] => []
  | c :: rest => if c == '+' || c == '-' then rest else c :: rest

/-- The regex from `tradeSchema` for numeric strings. -/
def matchesNumPattern (s : String) : Bool :=
  let cs := stripSign s
  let p := breakDot cs
  match p.2 with
  | none => !p.1.isEmpty && p.1.all Char.isDigit
  | some fr => p.1.all Char.isDigit && !fr.isEmpty && fr.all Char.isDigit

/-- The regex from `tradeSchema` line 58 of `src/server.js`:
ten characters, four digits, a dash, two digits, a dash, two digits. -/
def matchesDatePattern (s : String) : Bool :=
  match s.data with
  | [y1, y2, y3, y4, h1, m1, m2, h2, d1, d2] =>
      y1.isDigit && y2.isDigit && y3.isDigit && y4.isDigit &&
      h1 == '-' && m1.isDigit && m2.isDigit && h2 == '-' &&
      d1.isDigit && d2.isDigit
  | _ => false

/-- Numeric value of a digit string. -/
def digitsVal (cs : List Char) : Nat :=
  cs.foldl (fun n c => 10 * n + (c.toNat - 48)) 0

/-- `parseFloat` on the decimal strings admitted by `matchesNumPattern`
(the only strings the handlers ever parse, since validation has already
accepted the value). -/
def parseDec (s : String) : Rat :=
  let neg := s.startsWith "-"
  let p := breakDot (stripSign s)
  let mag : Rat :=
    match p.2 with
    | none => (digitsVal p.1 : Rat)
    | some fr => (digitsVal p.1 : Rat) + (digitsVal fr : Rat) / ((10 : Rat) ^ fr.length)
  if neg then -mag else mag

/-- The numeric value the handlers store for a validated price field:
`typeof v === 'string' ? parseFloat(v) : v` (`parseFloat` is the identity
on a number argument, so POST's unconditional `parseFloat` agrees). -/
def toNumber : JsVal → Rat
  | .num q => q
  | .str s => parseDec s
  | .undef => 0

/-- A request body for the trade schema: the six known keys (`undef` when
absent) plus any unknown keys, which `allowUnknown: false` rejects. -/
structure InputObj where
  instrument : JsVal
  entryPrice : JsVal
  exitPrice : JsVal
  tradeDate : JsVal
  profitLoss : JsVal
  notes : JsVal
  unknownKeys : List String
deriving DecidableEq, Repr

/-- One entry of the validation-failure list: `{ field, message }`. -/
structure FieldError where
  field : String
  message : String
deriving DecidableEq, Repr

/-- `Joi.string().min(2).max(50).required()` with the custom messages of
`tradeSchema`, under `convert: false`. -/
def checkInstrument : JsVal → Option String
  | .undef => some "instrument is required"
  | .num _ => some "instrument must be a string"
  | .str s =>
      if s = "" then some "Instrument cannot be empty"
      else if s.length < 2 then some "Instrument must be at least 2 characters"
      else if s.length > 50 then some "instrument length must be at most 50 characters"
      else none

/-- `Joi.alternatives().try(Joi.number(), Joi.string().pattern(...)).required()`
under `convert: false`: a number, or a string matching the decimal pattern. -/
def checkAmount (reqMsg matchMsg : String) : JsVal → Option String
  | .undef => some reqMsg
  | .num _ => none
  | .str s => if matchesNumPattern s then none else some matchMsg

/-- `Joi.string().pattern(/^\d{4}-\d{2}-\d{2}$/).required()` under
`convert: false`. -/
def checkTradeDate : JsVal → Option String
  | .undef => some "tradeDate is required"
  | .num _ => some "tradeDate must be a string"
  | .str s =>
      if s = "" then some "tradeDate is not allowed to be empty"
      else if matchesDatePattern s then none
      else some "tradeDate fails to match the required pattern"

/-- `Joi.string().allow('').max(500).optional()`. -/
def checkNotes : JsVal → Option String
  | .undef => none
  | .num _ => some "notes must be a string"
  | .str s =>
      if s.length > 500 then some "notes length must be at most 500 characters"
      else none

/-- Wrap one field's check result as a (possibly empty) error list. -/
def fieldErrs (name : String) : Option String → List FieldError
  | some m => [⟨name, m⟩]
  | none => []

/-- The full validation of `tradeSchema.validate(body, { abortEarly: false,
allowUnknown: false, convert: false })` followed by the handler's
`error.details.map(d => ({ field: d.path[0], message: d.message }))`:
every field's constraint is evaluated and the failures are concatenated in
schema order, with unknown-key rejections appended. -/
def validateErrors (o : InputObj) : List FieldError :=
  fieldErrs "instrument" (checkInstrument o.instrument)
  ++ fieldErrs "entryPrice"
      (checkAmount "entryPrice is required" "Entry price must be a valid number" o.entryPrice)
  ++ fieldErrs "exitPrice"
      (checkAmount "exitPrice is required" "exitPrice does not match any of the allowed types" o.exitPrice)
  ++ fieldErrs "tradeDate" (checkTradeDate o.tradeDate)
  ++ fieldErrs "profitLoss"
      (checkAmount "profitLoss is required" "profitLoss does not match any of the allowed types" o.profitLoss)
  ++ fieldErrs "notes" (checkNotes o.notes)
  ++ o.unknownKeys.map (fun k => ⟨k, k ++ " is not allowed"⟩)

/-- A stored trade record, as built by the POST handler of `src/server.js`
(string `_id` from `Date.now().toString()`, numeric prices, snake_case
keys, `Nat` timestamps standing for the ISO strings). -/
structure Trade where
  _id : String
  instrument : String
  entry_price : Rat
  exit_price : Rat
  trade_date : String
  profit_loss : Rat
  notes : String
  created_at : Nat
  updated_at : Nat
deriving DecidableEq, Repr

/-- The observable state of the server: the in-memory `trades` array and
the contents of the durable `trades.json` file. -/
structure ServerState where
  trades : List Trade
  file : List Trade
deriving DecidableEq, Repr

/-- `trades.find(t => String(t._id) === id)` — first record with the id. -/
def findTrade (id : String) : List Trade → Option Trade
  | [] => none
  | t :: ts => if t._id = id then some t else findTrade id ts

/-- `trades.findIndex(...)` followed by `trades[index] = f(trades[index])`:
returns the prior record at the first matching position together with the
updated list, or `none` when `findIndex` yields `-1`. -/
def updateFirst (id : String) (f : Trade → Trade) : List Trade → Option (Trade × List Trade)
  | [] => none
  | t :: ts =>
      if t._id = id then some (t, f t :: ts)
      else
        match updateFirst id f ts with
        | none => none
        | some (old, ts') => some (old, t :: ts')

/-- `trades.findIndex(...)` followed by `trades.splice(index, 1)[0]`:
returns the removed record at the first matching position together with
the remaining list, or `none` when `findIndex` yields `-1`. -/
def removeFirst (id : String) : List Trade → Option (Trade × List Trade)
  | [] => none
  | t :: ts =>
      if t._id = id then some (t, ts)
      else
        match removeFirst id ts with
        | none => none
        | some (r, ts') => some (r, t :: ts')

/-- The `newTrade` object literal of the POST handler: fresh string id from
the current millisecond clock, validated fields normalised, both
timestamps stamped to the current time. -/
def mkNewTrade (now : Nat) (o : InputObj) : Trade :=
  { _id := toString now,
    instrument := strOf o.instrument,
    entry_price := toNumber o.entryPrice,
    exit_price := toNumber o.exitPrice,
    trade_date := strOf o.tradeDate,
    profit_loss := toNumber o.profitLoss,
    notes := strOf o.notes,
    created_at := now,
    updated_at := now }

/-- Outcome of `POST /api/trades`: 400 with the error list, 201 with the
created record, or 500 when `saveTrades` throws. -/
inductive PostResult where
  | badRequest : List FieldError → PostResult
  | created : Trade → PostResult
  | serverError : PostResult
deriving DecidableEq, Repr

/-- The POST handler: validate; on failure return 400 leaving state alone;
otherwise push the new record onto the in-memory array and then attempt
the durable write — the push is not rolled back when the write fails, the
`catch` only answers 500. -/
def postTrade (saveFails : Bool) (now : Nat) (st : ServerState) (o : InputObj) :
    PostResult × ServerState :=
  match validateErrors o with
  | [] =>
      let nt := mkNewTrade now o
      let trades' := st.trades ++ [nt]
      if saveFails then (.serverError, { trades := trades', file := st.file })
      else (.created nt, { trades := trades', file := trades' })
  | errs => (.badRequest errs, st)

/-- Outcome of `PUT /api/trades/:id`. -/
inductive PutResult where
  | notFound : PutResult
  | badRequest : List FieldError → PutResult
  | ok : Trade → PutResult
  | serverError : PutResult
deriving DecidableEq, Repr

/-- The object literal assigned to `trades[index]` by the PUT handler:
spread of the old record (so `_id` and `created_at` survive), every
editable field overwritten from the validated value, `updated_at`
restamped. -/
def applyUpdate (now : Nat) (o : InputObj) (t : Trade) : Trade :=
  { t with
    instrument := strOf o.instrument,
    entry_price := toNumber o.entryPrice,
    exit_price := toNumber o.exitPrice,
    trade_date := strOf o.tradeDate,
    profit_loss := toNumber o.profitLoss,
    notes := strOf o.notes,
    updated_at := now }

/-- The PUT handler: `findIndex` (404 first), then validation (400, state
untouched), then in-place replacement of the record and the durable
write. -/
def putTrade (saveFails : Bool) (now : Nat) (st : ServerState) (id : String) (o : InputObj) :
    PutResult × ServerState :=
  match updateFirst id (applyUpdate now o) st.trades with
  | none => (.notFound, st)
  | some (old, trades') =>
      match validateErrors o with
      | [] =>
          if saveFails then (.serverError, { trades := trades', file := st.file })
          else (.ok (applyUpdate now o old), { trades := trades', file := trades' })
      | errs => (.badRequest errs, st)

/-- Outcome of `DELETE /api/trades/:id`. -/
inductive DeleteResult where
  | notFound : DeleteResult
  | ok : Trade → DeleteResult
  | serverError : DeleteResult
deriving DecidableEq, Repr

/-- The DELETE handler: `findIndex` (404 when absent), `splice` out the
record, durable write, and answer with the removed record. -/
def deleteTrade (saveFails : Bool) (st : ServerState) (id : String) :
    DeleteResult × ServerState :=
  match removeFirst id st.trades with
  | none => (.notFound, st)
  | some (r, trades') =>
      if saveFails then (.serverError, { trades := trades', file := st.file })
      else (.ok r, { trades := trades', file := trades' })

/-- A trade record as loaded raw from `trades.json`: any field may be
absent or hold either spelling's value, so every field is a `JsVal`, with
both the canonical snake_case and the legacy camelCase keys present. -/
structure RawTrade where
  _id : JsVal
  instrument : JsVal
  entry_price : JsVal
  entryPrice : JsVal
  exit_price : JsVal
  exitPrice : JsVal
  trade_date : JsVal
  tradeDate : JsVal
  profit_loss : JsVal
  profitLoss : JsVal
  notes : JsVal
  created_at : JsVal
  updated_at : JsVal
deriving DecidableEq, Repr

/-- The per-record body of `cleanDuplicateFields`: an object literal with
only the canonical keys (so the camelCase keys read as `undefined`
afterwards), each canonical field taken by `canonical || legacy`, and the
timestamps defaulted with `|| new Date().toISOString()` (`now` is that
ISO string). -/
def cleanTrade (now : String) (t : RawTrade) : RawTrade :=
  { _id := t._id,
    instrument := t.instrument,
    entry_price := jsOr t.entry_price t.entryPrice,
    entryPrice := .undef,
    exit_price := jsOr t.exit_price t.exitPrice,
    exitPrice := .undef,
    trade_date := jsOr t.trade_date t.tradeDate,
    tradeDate := .undef,
    profit_loss := jsOr t.profit_loss t.profitLoss,
    profitLoss := .undef,
    notes := t.notes,
    created_at := jsOr t.created_at (.str now),
    updated_at := jsOr t.updated_at (.str now) }

/-- `cleanDuplicateFields` from `src/server.js`: map `cleanTrade` over the
whole loaded collection. -/
def cleanDuplicateFields (now : String) (ts : List RawTrade) : List RawTrade :=
  ts.map (cleanTrade now)

/-- A fully valid request body, used for concrete evaluations. -/
def sampleInput : InputObj :=
  { instrument := .str "AAPL",
    entryPrice := .num 150,
    exitPrice := .num 155,
    tradeDate := .str "2023-05-15",
    profitLoss := .num 5,
    notes := .str "",
    unknownKeys := [] }

/-- A request body whose `tradeDate` is date-parsable text that is not in
the exact `YYYY-MM-DD` form. -/
def parsableDateInput : InputObj :=
  { sampleInput with tradeDate := .str "May 15, 2023" }

/-- A request body violating two constraints at once (`instrument` too
short, `tradeDate` missing). -/
def doublyInvalidInput : InputObj :=
  { sampleInput with instrument := .str "A", tradeDate := .undef }

/-- A stored record used for concrete evaluations (timestamps at 5). -/
def sampleStored : Trade :=
  { _id := "1",
    instrument := "AAPL",
    entry_price := 150,
    exit_price := 155,
    trade_date := "2023-05-15",
    profit_loss := 5,
    notes := "",
    created_at := 5,
    updated_at := 5 }

/-- A raw loaded record whose only price information is a legacy
camelCase `entryPrice` holding the number `0` (a break-even entry). -/
def rawZeroLegacy : RawTrade :=
  { _id := .str "1",
    instrument := .str "AAPL",
    entry_price := .undef,
    entryPrice := .num 0,
    exit_price := .num 155,
    exitPrice := .undef,
    trade_date := .str "2023-05-15",
    tradeDate := .undef,
    profit_loss := .num 5,
    profitLoss := .undef,
    notes := .str "",
    created_at := .str "2024-01-01T00:00:00.000Z",
    updated_at := .str "2024-01-01T00:00:00.000Z" }

/-- A raw loaded record with ordinary truthy values in every populated
field (the common shape of a migrated collection). -/
def rawGood : RawTrade :=
  { _id := .str "2",
    instrument := .str "MSFT",
    entry_price := .num 310,
    entryPrice := .undef,
    exit_price := .num 312,
    exitPrice := .undef,
    trade_date := .str "2023-06-01",
    tradeDate := .undef,
    profit_loss := .num 2,
    profitLoss := .undef,
    notes := .str "",
    created_at := .undef,
    updated_at := .undef }

/-- A raw loaded record whose canonical `entry_price` holds the number
`0`, with no legacy spelling present. -/
def rawZeroCanonical : RawTrade :=
  { rawGood with entry_price := .num 0, _id := .str "3" }

theorem findTrade_eq_none_of_forall (id : String) (ts : List Trade)
    (h : ∀ t ∈ ts, ¬ t._id = id) : findTrade id ts = none := by
  induction ts with
  | nil => rfl
  | cons t ts ih =>
      simp only [findTrade, if_neg (h t (List.mem_cons_self t ts))]
      exact ih (fun u hu => h u (List.mem_cons_of_mem t hu))

theorem updateFirst_of_findTrade (id : String) (f : Trade → Trade)
    (hf : ∀ t, (f t)._id = t._id) (ts : List Trade) (old : Trade)
    (h : findTrade id ts = some old) :
    ∃ ts', updateFirst id f ts = some (old, ts') ∧
      findTrade id ts' = some (f old) := by
  induction ts with
  | nil => simp [findTrade] at h
  | cons t ts ih =>
      by_cases hid : t._id = id
      · simp only [findTrade, if_pos hid, Option.some.injEq] at h
        subst h
        refine ⟨f t :: ts, ?_, ?_⟩
        · simp [updateFirst, hid]
        · simp [findTrade, hf t, hid]
      · simp only [findTrade, if_neg hid] at h
        obtain ⟨ts', h1, h2⟩ := ih h
        refine ⟨t :: ts', ?_, ?_⟩
        · simp [updateFirst, if_neg hid, h1]
        · simp [findTrade, if_neg hid, h2]

theorem updateFirst_eq_none_of_findTrade (id : String) (f : Trade → Trade)
    (ts : List Trade) (h : findTrade id ts = none) :
    updateFirst id f ts = none := by
  induction ts with
  | nil => rfl
  | cons t ts ih =>
      by_cases hid : t._id = id
      · simp [findTrade, hid] at h
      · simp only [findTrade, if_neg hid] at h
        simp [updateFirst, if_neg hid, ih h]

theorem removeFirst_of_findTrade (id : String) (ts : List Trade) (old : Trade)
    (h : findTrade id ts = some old) :
    ∃ ts', removeFirst id ts = some (old, ts') ∧
      ((ts.map Trade._id).Nodup → findTrade id ts' = none) := by
  induction ts with
  | nil => simp [findTrade] at h
  | cons t ts ih =>
      by_cases hid : t._id = id
      · simp only [findTrade, if_pos hid, Option.some.injEq] at h
        subst h
        refine ⟨ts, by simp [removeFirst, hid], ?_⟩
        intro hnd
        simp only [List.map_cons, List.nodup_cons] at hnd
        apply findTrade_eq_none_of_forall
        intro u hu hue
        have hmem : u._id ∈ ts.map Trade._id := List.mem_map_of_mem Trade._id hu
        rw [hue, ← hid] at hmem
        exact hnd.1 hmem
      · simp only [findTrade, if_neg hid] at h
        obtain ⟨ts', h1, h2⟩ := ih h
        refine ⟨t :: ts', by simp [removeFirst, if_neg hid, h1], ?_⟩
        intro hnd
        simp only [List.map_cons, List.nodup_cons] at hnd
        simp [findTrade, if_neg hid, h2 hnd.2]

theorem removeFirst_eq_none_of_findTrade (id : String) (ts : List Trade)
    (h : findTrade id ts = none) : removeFirst id ts = none := by
  induction ts with
  | nil => rfl
  | cons t ts ih =>
      by_cases hid : t._id = id
      · simp [findTrade, hid] at h
      · simp only [findTrade, if_neg hid] at h
        simp [removeFirst, if_neg hid, ih h]


/-- A canonical/legacy field pair merges stably when `canonical || legacy`
is either truthy or `undefined`; a defined falsy merge (such as `0`) is
what a second migration run destroys. -/
def stableMerge (c l : JsVal) : Prop :=
  (jsOr c l).truthy = true ∨ jsOr c l = JsVal.undef

instance (c l : JsVal) : Decidable (stableMerge c l) := by
  unfold stableMerge
  infer_instance

theorem jsOr_of_truthy (x y : JsVal) (h : x.truthy = true) : jsOr x y = x := by
  simp [jsOr, h]

theorem jsOr_undef_of_stable (c l : JsVal) (h : stableMerge c l) :
    jsOr (jsOr c l) JsVal.undef = jsOr c l := by
  rcases h with h | h
  · exact jsOr_of_truthy _ _ h
  · rw [h]
    rfl

theorem jsOr_stamp_stable (a : JsVal) (now now' : String) (hnow : ¬ now = "") :
    jsOr (jsOr a (JsVal.str now)) (JsVal.str now') = jsOr a (JsVal.str now) := by
  by_cases h : a.truthy
  · rw [jsOr_of_truthy a _ h]
    exact jsOr_of_truthy a _ h
  · have h1 : jsOr a (JsVal.str now) = JsVal.str now := by
      simp [jsOr, h]
    rw [h1]
    apply jsOr_of_truthy
    simp [JsVal.truthy, bne_iff_ne, hnow]

/-- C1: evaluating the POST handler at a concrete valid request while the
durable write fails: the handler answers 500, yet the record pushed before
the failed write stays in the in-memory array while the durable file keeps
its prior (empty) contents — memory and file diverge, against the claim's
both-or-neither requirement. -/
theorem create_save_failure_diverges :
    (postTrade true 5 ⟨[], []⟩ sampleInput).1 = PostResult.serverError ∧
    (postTrade true 5 ⟨[], []⟩ sampleInput).2.trades = [mkNewTrade 5 sampleInput] ∧
    (postTrade true 5 ⟨[], []⟩ sampleInput).2.file = [] ∧
    (postTrade true 5 ⟨[], []⟩ sampleInput).2.trades
      ≠ (postTrade true 5 ⟨[], []⟩ sampleInput).2.file := by
  decide

/-- C2 counterexample: on a record whose only entry price is the legacy
camelCase `entryPrice` holding `0`, one migration pass stores
`entry_price = 0`, but a second pass evaluates `0 || undefined` and
replaces it by `undefined`: running the migration twice does not produce
the state of running it once. -/
theorem clean_migration_not_idempotent :
    cleanDuplicateFields "T" (cleanDuplicateFields "T" [rawZeroLegacy])
      ≠ cleanDuplicateFields "T" [rawZeroLegacy] := by
  decide

/-- C2 amended: the legacy-field-normalization migration is idempotent on
every collection in which each record's four canonical-or-legacy merges
(`entry_price || entryPrice` and so on) are each truthy or fully absent —
that is, no merged field holds a defined falsy value such as the number
`0` — given that the timestamp string stamped by the first run is
nonempty (ISO timestamps always are). -/
theorem clean_migration_idempotent (now now' : String) (hnow : ¬ now = "")
    (ts : List RawTrade)
    (hg : ∀ t ∈ ts, stableMerge t.entry_price t.entryPrice ∧
        stableMerge t.exit_price t.exitPrice ∧
        stableMerge t.trade_date t.tradeDate ∧
        stableMerge t.profit_loss t.profitLoss) :
    cleanDuplicateFields now' (cleanDuplicateFields now ts)
      = cleanDuplicateFields now ts := by
  unfold cleanDuplicateFields
  rw [List.map_map]
  apply List.map_congr_left
  intro t ht
  obtain ⟨h1, h2, h3, h4⟩ := hg t ht
  simp only [Function.comp_apply, cleanTrade]
  simp [jsOr_undef_of_stable _ _ h1, jsOr_undef_of_stable _ _ h2,
    jsOr_undef_of_stable _ _ h3, jsOr_undef_of_stable _ _ h4,
    jsOr_stamp_stable _ now now' hnow]

/-- Witness for the amended C2 at a concrete well-formed collection. -/
theorem clean_migration_idempotent_witness :
    cleanDuplicateFields "2024-02-02T00:00:00.000Z"
        (cleanDuplicateFields "2024-01-01T00:00:00.000Z" [rawGood])
      = cleanDuplicateFields "2024-01-01T00:00:00.000Z" [rawGood] := by
  exact clean_migration_idempotent "2024-01-01T00:00:00.000Z"
    "2024-02-02T00:00:00.000Z" (by decide) [rawGood] (by decide)

/-- C10: for each of the four canonical snake_case fields, the migration
keeps the stored canonical value only when it is truthy; a falsy canonical
value — `undefined`, the empty string, or the number `0` — is replaced by
the legacy camelCase field's value (which may itself be `undefined`). -/
theorem clean_keeps_only_truthy (now : String) (t : RawTrade) :
    (t.entry_price.truthy = false → (cleanTrade now t).entry_price = t.entryPrice) ∧
    (t.entry_price.truthy = true → (cleanTrade now t).entry_price = t.entry_price) ∧
    (t.exit_price.truthy = false → (cleanTrade now t).exit_price = t.exitPrice) ∧
    (t.exit_price.truthy = true → (cleanTrade now t).exit_price = t.exit_price) ∧
    (t.trade_date.truthy = false → (cleanTrade now t).trade_date = t.tradeDate) ∧
    (t.trade_date.truthy = true → (cleanTrade now t).trade_date = t.trade_date) ∧
    (t.profit_loss.truthy = false → (cleanTrade now t).profit_loss = t.profitLoss) ∧
    (t.profit_loss.truthy = true → (cleanTrade now t).profit_loss = t.profit_loss) := by
  refine ⟨?_, ?_, ?_, ?_, ?_, ?_, ?_, ?_⟩ <;> intro h <;> simp [cleanTrade, jsOr, h]

/-- Witness for C10: a stored canonical `entry_price` of `0` is discarded
in favour of the (absent) legacy field, i.e. becomes `undefined`. -/
theorem clean_keeps_only_truthy_witness :
    (cleanTrade "T" rawZeroCanonical).entry_price = rawZeroCanonical.entryPrice ∧
    rawZeroCanonical.entry_price = JsVal.num 0 ∧
    rawZeroCanonical.entryPrice = JsVal.undef := by
  refine ⟨?_, by decide, by decide⟩
  exact (clean_keeps_only_truthy "T" rawZeroCanonical).1 (by decide)

/-- C5 counterexample: the id of a created record is `Date.now()` as a
string, so two creates in the same millisecond both derive the id "5";
both succeed and the collection afterwards holds two records with the
same id — ids are not unique across the collection. -/
theorem create_ids_collide_same_millisecond :
    (postTrade false 5 ⟨[], []⟩ sampleInput).1
        = PostResult.created (mkNewTrade 5 sampleInput) ∧
    (postTrade false 5 (postTrade false 5 ⟨[], []⟩ sampleInput).2 sampleInput).1
        = PostResult.created (mkNewTrade 5 sampleInput) ∧
    ¬ ((postTrade false 5 (postTrade false 5 ⟨[], []⟩ sampleInput).2
          sampleInput).2.trades.map Trade._id).Nodup := by
  decide

/-- C5 amended: each create keeps ids unique provided its
millisecond-clock id is fresh — distinct from every id already in the
collection (so in particular no two creates share a millisecond). -/
theorem create_id_unique_of_fresh_clock (saveFails : Bool) (now : Nat)
    (st : ServerState) (o : InputObj)
    (hv : validateErrors o = [])
    (hnd : (st.trades.map Trade._id).Nodup)
    (hfresh : toString now ∉ st.trades.map Trade._id) :
    ((postTrade saveFails now st o).2.trades.map Trade._id).Nodup := by
  have key : ((st.trades ++ [mkNewTrade now o]).map Trade._id).Nodup := by
    rw [List.map_append]
    refine List.Nodup.append hnd (by simp) ?_
    intro a ha hb
    simp only [List.map_cons, List.map_nil, List.mem_singleton, mkNewTrade] at hb
    subst hb
    exact hfresh ha
  unfold postTrade
  rw [hv]
  cases saveFails <;> simpa using key

/-- Witness for the amended C5 at a concrete store and fresh clock. -/
theorem create_id_unique_of_fresh_clock_witness :
    ((postTrade false 6 ⟨[sampleStored], [sampleStored]⟩
        sampleInput).2.trades.map Trade._id).Nodup := by
  exact create_id_unique_of_fresh_clock false 6 ⟨[sampleStored], [sampleStored]⟩
    sampleInput (by decide) (by decide) (by decide)

/-- C6: for an existing record and a valid body, PUT rewrites the stored
record so that a subsequent get finds exactly `applyUpdate now o old`:
every editable field is overwritten from the validated input (a full
replacement, not a partial merge), `_id` and `created_at` are untouched,
and `updated_at` becomes the current instant, which under a monotone
clock has not decreased. -/
theorem update_replaces_all_fields (saveFails : Bool) (now : Nat)
    (st : ServerState) (id : String) (o : InputObj) (old : Trade)
    (hget : findTrade id st.trades = some old)
    (hv : validateErrors o = [])
    (hclock : old.updated_at ≤ now) :
    ∃ t', findTrade id (putTrade saveFails now st id o).2.trades = some t' ∧
      t' = applyUpdate now o old ∧
      t'._id = old._id ∧ t'.created_at = old.created_at ∧
      t'.updated_at = now ∧ old.updated_at ≤ t'.updated_at ∧
      t'.instrument = strOf o.instrument ∧
      t'.entry_price = toNumber o.entryPrice ∧
      t'.exit_price = toNumber o.exitPrice ∧
      t'.trade_date = strOf o.tradeDate ∧
      t'.profit_loss = toNumber o.profitLoss ∧
      t'.notes = strOf o.notes := by
  obtain ⟨ts', h1, h2⟩ := updateFirst_of_findTrade id (applyUpdate now o)
    (fun t => rfl) st.trades old hget
  refine ⟨applyUpdate now o old, ?_, rfl, rfl, rfl, rfl, hclock,
    rfl, rfl, rfl, rfl, rfl, rfl⟩
  unfold putTrade
  rw [h1, hv]
  cases saveFails <;> simpa using h2

/-- Witness for C6 at a concrete store, record and later clock. -/
theorem update_replaces_all_fields_witness :
    ∃ t', findTrade "1" (putTrade false 6 ⟨[sampleStored], [sampleStored]⟩
        "1" sampleInput).2.trades = some t' ∧
      t' = applyUpdate 6 sampleInput sampleStored ∧
      t'._id = sampleStored._id ∧ t'.created_at = sampleStored.created_at ∧
      t'.updated_at = 6 ∧ sampleStored.updated_at ≤ t'.updated_at ∧
      t'.instrument = strOf sampleInput.instrument ∧
      t'.entry_price = toNumber sampleInput.entryPrice ∧
      t'.exit_price = toNumber sampleInput.exitPrice ∧
      t'.trade_date = strOf sampleInput.tradeDate ∧
      t'.profit_loss = toNumber sampleInput.profitLoss ∧
      t'.notes = strOf sampleInput.notes := by
  exact update_replaces_all_fields false 6 ⟨[sampleStored], [sampleStored]⟩
    "1" sampleInput sampleStored (by decide) (by decide) (by decide)

/-- C7 counterexample: a PUT that lands in the same millisecond as the
record's previous `updated_at` answers 200 with the updated record, but
its `updated_at` equals the prior value instead of being strictly
greater. -/
theorem put_same_instant_not_strictly_greater :
    (putTrade false 5 ⟨[sampleStored], [sampleStored]⟩ "1" sampleInput).1
        = PutResult.ok (applyUpdate 5 sampleInput sampleStored) ∧
    (applyUpdate 5 sampleInput sampleStored).updated_at
        = sampleStored.updated_at ∧
    ¬ sampleStored.updated_at
        < (applyUpdate 5 sampleInput sampleStored).updated_at := by
  decide

/-- C7 amended: a PUT on an existing id with a fully valid body answers
200, preserves `_id` and `created_at`, and returns an `updated_at`
strictly greater than the prior value whenever the wall clock has
strictly advanced past the record's prior `updated_at` (within the same
instant it is merely equal). -/
theorem put_strictly_refreshes_when_clock_advances (now : Nat)
    (st : ServerState) (id : String) (o : InputObj) (old : Trade)
    (hget : findTrade id st.trades = some old)
    (hv : validateErrors o = [])
    (hclock : old.updated_at < now) :
    ∃ t', (putTrade false now st id o).1 = PutResult.ok t' ∧
      old.updated_at < t'.updated_at ∧
      t'._id = old._id ∧ t'.created_at = old.created_at := by
  obtain ⟨ts', h1, h2⟩ := updateFirst_of_findTrade id (applyUpdate now o)
    (fun t => rfl) st.trades old hget
  refine ⟨applyUpdate now o old, ?_, hclock, rfl, rfl⟩
  unfold putTrade
  rw [h1, hv]
  rfl

/-- Witness for the amended C7 with the clock one tick later. -/
theorem put_strictly_refreshes_witness :
    ∃ t', (putTrade false 6 ⟨[sampleStored], [sampleStored]⟩
        "1" sampleInput).1 = PutResult.ok t' ∧
      sampleStored.updated_at < t'.updated_at ∧
      t'._id = sampleStored._id ∧ t'.created_at = sampleStored.created_at := by
  exact put_strictly_refreshes_when_clock_advances 6
    ⟨[sampleStored], [sampleStored]⟩ "1" sampleInput sampleStored
    (by decide) (by decide) (by decide)

/-- C8: in a store with unique ids, deleting a present id answers with the
removed record's prior state and a subsequent get signals not-found, while
deleting an absent id answers not-found and changes nothing. -/
theorem delete_then_get (st : ServerState) (id : String)
    (hnd : (st.trades.map Trade._id).Nodup) :
    (∀ r, findTrade id st.trades = some r →
      (deleteTrade false st id).1 = DeleteResult.ok r ∧
      findTrade id (deleteTrade false st id).2.trades = none) ∧
    (findTrade id st.trades = none →
      deleteTrade false st id = (DeleteResult.notFound, st)) := by
  constructor
  · intro r hr
    obtain ⟨ts', h1, h2⟩ := removeFirst_of_findTrade id st.trades r hr
    unfold deleteTrade
    rw [h1]
    exact ⟨rfl, h2 hnd⟩
  · intro h
    unfold deleteTrade
    rw [removeFirst_eq_none_of_findTrade id st.trades h]

/-- Witness for C8: deleting the present id "1" and the absent id "2". -/
theorem delete_then_get_witness :
    (deleteTrade false ⟨[sampleStored], [sampleStored]⟩ "1").1
        = DeleteResult.ok sampleStored ∧
    findTrade "1" (deleteTrade false ⟨[sampleStored], [sampleStored]⟩
        "1").2.trades = none ∧
    deleteTrade false ⟨[sampleStored], [sampleStored]⟩ "2"
        = (DeleteResult.notFound, ⟨[sampleStored], [sampleStored]⟩) := by
  refine ⟨?_, ?_, ?_⟩
  · exact ((delete_then_get ⟨[sampleStored], [sampleStored]⟩ "1"
      (by decide)).1 sampleStored (by decide)).1
  · exact ((delete_then_get ⟨[sampleStored], [sampleStored]⟩ "1"
      (by decide)).1 sampleStored (by decide)).2
  · exact (delete_then_get ⟨[sampleStored], [sampleStored]⟩ "2"
      (by decide)).2 (by decide)

/-- C9: a request answered 400 (validation failure) or 404 (unknown id)
leaves the whole server state — in-memory array and durable file — exactly
as it was: POST and PUT validate before mutating, and PUT and DELETE
return on a missing id before mutating. -/
theorem rejected_request_preserves_state (saveFails : Bool) (now : Nat)
    (st : ServerState) (o : InputObj) (id : String) :
    (validateErrors o ≠ [] →
      (postTrade saveFails now st o).2 = st ∧
      (putTrade saveFails now st id o).2 = st) ∧
    (findTrade id st.trades = none →
      (putTrade saveFails now st id o).2 = st ∧
      (deleteTrade saveFails st id).2 = st) := by
  constructor
  · intro h
    constructor
    · unfold postTrade
      cases hv : validateErrors o with
      | nil => exact absurd hv h
      | cons e es => rfl
    · unfold putTrade
      cases hu : updateFirst id (applyUpdate now o) st.trades with
      | none => rfl
      | some p =>
          obtain ⟨old, ts'⟩ := p
          cases hv : validateErrors o with
          | nil => exact absurd hv h
          | cons e es => rfl
  · intro h
    constructor
    · unfold putTrade
      rw [updateFirst_eq_none_of_findTrade id (applyUpdate now o) st.trades h]
    · unfold deleteTrade
      rw [removeFirst_eq_none_of_findTrade id st.trades h]

/-- Witness for C9: a doubly invalid body and an absent id at a concrete
one-record store. -/
theorem rejected_request_preserves_state_witness :
    (postTrade false 7 ⟨[sampleStored], [sampleStored]⟩
        doublyInvalidInput).2 = ⟨[sampleStored], [sampleStored]⟩ ∧
    (putTrade false 7 ⟨[sampleStored], [sampleStored]⟩ "1"
        doublyInvalidInput).2 = ⟨[sampleStored], [sampleStored]⟩ ∧
    (putTrade false 7 ⟨[sampleStored], [sampleStored]⟩ "9"
        sampleInput).2 = ⟨[sampleStored], [sampleStored]⟩ ∧
    (deleteTrade false ⟨[sampleStored], [sampleStored]⟩ "9").2
        = ⟨[sampleStored], [sampleStored]⟩ := by
  refine ⟨?_, ?_, ?_, ?_⟩
  · exact ((rejected_request_preserves_state false 7
      ⟨[sampleStored], [sampleStored]⟩ doublyInvalidInput "1").1 (by decide)).1
  · exact ((rejected_request_preserves_state false 7
      ⟨[sampleStored], [sampleStored]⟩ doublyInvalidInput "1").1 (by decide)).2
  · exact ((rejected_request_preserves_state false 7
      ⟨[sampleStored], [sampleStored]⟩ sampleInput "9").2 (by decide)).1
  · exact ((rejected_request_preserves_state false 7
      ⟨[sampleStored], [sampleStored]⟩ sampleInput "9").2 (by decide)).2

theorem filter_block (n m : String) (r : Option String) :
    (fieldErrs n r).filter (fun e => e.field = m)
      = if n = m then fieldErrs n r else [] := by
  by_cases h : n = m
  · subst h
    cases r <;> simp [fieldErrs]
  · cases r <;> simp [fieldErrs, h]

theorem filter_unknown_map (ks : List String) (m : String)
    (h : ∀ k ∈ ks, ¬ k = m) :
    (ks.map (fun k => (⟨k, k ++ " is not allowed"⟩ : FieldError))).filter
      (fun e => e.field = m) = [] := by
  induction ks with
  | nil => rfl
  | cons k ks ih =>
      simp only [List.map_cons]
      rw [List.filter_cons_of_neg]
      · exact ih (fun u hu => h u (List.mem_cons_of_mem k hu))
      · simp [h k (List.mem_cons_self k ks)]

/-- C3: the validator evaluates every constraint instead of stopping at
the first failure: for each schema field, the failure list carries exactly
one `{field, message}` entry precisely when that field's check fails
(independently of all other fields), and every rejected unknown key also
contributes its entry; the list is ordered by construction in schema
order. -/
theorem validator_reports_every_violation (o : InputObj)
    (hunk : ∀ k ∈ o.unknownKeys,
      ¬ k = "instrument" ∧ ¬ k = "entryPrice" ∧ ¬ k = "exitPrice" ∧
      ¬ k = "tradeDate" ∧ ¬ k = "profitLoss" ∧ ¬ k = "notes") :
    ((validateErrors o).filter (fun e => e.field = "instrument")).length
        = (if (checkInstrument o.instrument).isSome then 1 else 0) ∧
    ((validateErrors o).filter (fun e => e.field = "entryPrice")).length
        = (if (checkAmount "entryPrice is required"
            "Entry price must be a valid number" o.entryPrice).isSome then 1 else 0) ∧
    ((validateErrors o).filter (fun e => e.field = "exitPrice")).length
        = (if (checkAmount "exitPrice is required"
            "exitPrice does not match any of the allowed types"
            o.exitPrice).isSome then 1 else 0) ∧
    ((validateErrors o).filter (fun e => e.field = "tradeDate")).length
        = (if (checkTradeDate o.tradeDate).isSome then 1 else 0) ∧
    ((validateErrors o).filter (fun e => e.field = "profitLoss")).length
        = (if (checkAmount "profitLoss is required"
            "profitLoss does not match any of the allowed types"
            o.profitLoss).isSome then 1 else 0) ∧
    ((validateErrors o).filter (fun e => e.field = "notes")).length
        = (if (checkNotes o.notes).isSome then 1 else 0) ∧
    (∀ k ∈ o.unknownKeys,
      (⟨k, k ++ " is not allowed"⟩ : FieldError) ∈ validateErrors o) := by
  refine ⟨?_, ?_, ?_, ?_, ?_, ?_, ?_⟩
  · simp only [validateErrors, List.filter_append, filter_block,
      filter_unknown_map o.unknownKeys "instrument" (fun k hk => (hunk k hk).1)]
    cases checkInstrument o.instrument <;> simp [fieldErrs]
  · simp only [validateErrors, List.filter_append, filter_block,
      filter_unknown_map o.unknownKeys "entryPrice" (fun k hk => (hunk k hk).2.1)]
    cases checkAmount "entryPrice is required"
      "Entry price must be a valid number" o.entryPrice <;> simp [fieldErrs]
  · simp only [validateErrors, List.filter_append, filter_block,
      filter_unknown_map o.unknownKeys "exitPrice" (fun k hk => (hunk k hk).2.2.1)]
    cases checkAmount "exitPrice is required"
      "exitPrice does not match any of the allowed types" o.exitPrice <;>
      simp [fieldErrs]
  · simp only [validateErrors, List.filter_append, filter_block,
      filter_unknown_map o.unknownKeys "tradeDate" (fun k hk => (hunk k hk).2.2.2.1)]
    cases checkTradeDate o.tradeDate <;> simp [fieldErrs]
  · simp only [validateErrors, List.filter_append, filter_block,
      filter_unknown_map o.unknownKeys "profitLoss"
        (fun k hk => (hunk k hk).2.2.2.2.1)]
    cases checkAmount "profitLoss is required"
      "profitLoss does not match any of the allowed types" o.profitLoss <;>
      simp [fieldErrs]
  · simp only [validateErrors, List.filter_append, filter_block,
      filter_unknown_map o.unknownKeys "notes" (fun k hk => (hunk k hk).2.2.2.2.2)]
    cases checkNotes o.notes <;> simp [fieldErrs]
  · intro k hk
    simp only [validateErrors]
    refine List.mem_append.2 (Or.inr ?_)
    exact List.mem_map_of_mem _ hk

/-- Witness for C3: a body violating two constraints at once yields one
entry for each violated field, and none for a satisfied one. -/
theorem validator_reports_every_violation_witness :
    ((validateErrors doublyInvalidInput).filter
        (fun e => e.field = "instrument")).length = 1 ∧
    ((validateErrors doublyInvalidInput).filter
        (fun e => e.field = "tradeDate")).length = 1 ∧
    ((validateErrors doublyInvalidInput).filter
        (fun e => e.field = "entryPrice")).length = 0 := by
  have h := validator_reports_every_violation doublyInvalidInput (by decide)
  refine ⟨?_, ?_, ?_⟩
  · rw [h.1]
    decide
  · rw [h.2.2.2.1]
    decide
  · rw [h.2.1]
    decide

/-- C4: the validator accepts a body only when its `tradeDate` is a string
in the exact textual form `YYYY-MM-DD` (the anchored pattern of
`tradeSchema`); any other value — including date-parsable strings in a
different form — produces a validation error. -/
theorem tradeDate_exact_form_only (o : InputObj) :
    (validateErrors o = [] →
      ∃ s, o.tradeDate = JsVal.str s ∧ matchesDatePattern s = true) ∧
    (∀ s, o.tradeDate = JsVal.str s → matchesDatePattern s = false →
      validateErrors o ≠ []) := by
  constructor
  · intro h
    simp only [validateErrors, List.append_eq_nil] at h
    have h4 : fieldErrs "tradeDate" (checkTradeDate o.tradeDate) = [] :=
      h.1.1.1.2
    cases v : o.tradeDate with
    | undef =>
        rw [v] at h4
        simp [checkTradeDate, fieldErrs] at h4
    | num q =>
        rw [v] at h4
        simp [checkTradeDate, fieldErrs] at h4
    | str s =>
        rw [v] at h4
        refine ⟨s, rfl, ?_⟩
        by_contra hp
        simp only [Bool.not_eq_true] at hp
        by_cases hse : s = "" <;>
          simp [checkTradeDate, fieldErrs, hse, hp] at h4
  · intro s hs hp h
    simp only [validateErrors, List.append_eq_nil] at h
    have h4 : fieldErrs "tradeDate" (checkTradeDate o.tradeDate) = [] :=
      h.1.1.1.2
    rw [hs] at h4
    by_cases hse : s = "" <;>
      simp [checkTradeDate, fieldErrs, hse, hp] at h4

/-- Witness for C4: the exact form passes, a date-parsable variant is
rejected. -/
theorem tradeDate_exact_form_only_witness :
    matchesDatePattern "2023-05-15" = true ∧
    validateErrors parsableDateInput ≠ [] := by
  constructor
  · obtain ⟨s, hs, hp⟩ := (tradeDate_exact_form_only sampleInput).1 (by decide)
    have hv : JsVal.str "2023-05-15" = JsVal.str s := hs
    injection hv with hv
    rw [← hv] at hp
    exact hp
  · exact (tradeDate_exact_form_only parsableDateInput).2 "May 15, 2023"
      (by decide) (by decide)

end TradeTracker
